import Mathlib

/-
Verification of the forward-mode automatic differentiation engine of
ziap/autodiff (src/src/autodiff.rs).

The Rust core is a family of node structs (Var, Const, AddOp, SubOp, NegOp,
MulOp, DivOp, PowOp, ExpOp, SinOp, CosOp, LnOp) all implementing

    trait Differentiable { fn eval(self, input: f32) -> (f32, f32); }

together with an `Expression<T>` wrapper that forwards `eval` and provides
the operator / method construction surface.  Following the reformulation
the design notes themselves suggest (a closed sum type over node kinds,
evaluated by a single pattern match), the node algebra is embedded here as
one inductive type `Expression` and one recursive `eval`.

Numeric model: the code computes over IEEE-754 `f32`.  We use an idealised
float carrier `FP`: finite values are exact rationals (rounding is
abstracted away; every concrete number appearing in the claims is exactly
representable and exactly computed in f32), plus the special values
`inf`, `neginf` and `nan` with the IEEE-754 arithmetic rules for them.
Signed zeros are not distinguished.  Equality of `FP` values models
bit-identity of the computed f32 values (so `nan = nan` holds, as bit
patterns, even though IEEE `==` would reject it).

The transcendental library functions used by the code (powf, exp, ln,
sin, cos, and the spec's atan) are abstracted as an interpretation
structure `Transc` of total functions; theorems quantify over the
interpretation and pin down only the library values a concrete claim
needs (all of which are exact in f32).
-/

/-- Idealised IEEE-754 f32 value: an exact finite rational, or one of the
special values infinity, negative infinity, NaN. -/
inductive FP where
  | num (val : ℚ)
  | inf
  | neginf
  | nan
deriving DecidableEq

/-- IEEE-754 negation on the idealised carrier. -/
def FP.neg : FP → FP
  | num a => num (-a)
  | inf => neginf
  | neginf => inf
  | nan => nan

/-- IEEE-754 addition on the idealised carrier (exact on finite values). -/
def FP.add : FP → FP → FP
  | nan, _ => nan
  | _, nan => nan
  | inf, neginf => nan
  | neginf, inf => nan
  | inf, _ => inf
  | _, inf => inf
  | neginf, _ => neginf
  | _, neginf => neginf
  | num a, num b => num (a + b)

/-- IEEE-754 subtraction on the idealised carrier (exact on finite values). -/
def FP.sub : FP → FP → FP
  | nan, _ => nan
  | _, nan => nan
  | inf, inf => nan
  | neginf, neginf => nan
  | inf, _ => inf
  | _, inf => neginf
  | neginf, _ => neginf
  | _, neginf => inf
  | num a, num b => num (a - b)

/-- IEEE-754 multiplication on the idealised carrier: infinity times zero
is NaN, otherwise infinities follow the sign rules. -/
def FP.mul : FP → FP → FP
  | nan, _ => nan
  | _, nan => nan
  | inf, inf => inf
  | inf, neginf => neginf
  | neginf, inf => neginf
  | neginf, neginf => inf
  | inf, num b => if 0 < b then inf else if b < 0 then neginf else nan
  | num a, inf => if 0 < a then inf else if a < 0 then neginf else nan
  | neginf, num b => if 0 < b then neginf else if b < 0 then inf else nan
  | num a, neginf => if 0 < a then neginf else if a < 0 then inf else nan
  | num a, num b => num (a * b)

/-- IEEE-754 division on the idealised carrier: a nonzero finite value
divided by zero is a signed infinity, zero over zero is NaN, infinity over
infinity is NaN, a finite value over infinity is zero. -/
def FP.div : FP → FP → FP
  | nan, _ => nan
  | _, nan => nan
  | inf, inf => nan
  | inf, neginf => nan
  | neginf, inf => nan
  | neginf, neginf => nan
  | inf, num b => if b < 0 then neginf else inf
  | neginf, num b => if b < 0 then inf else neginf
  | num _, inf => num 0
  | num _, neginf => num 0
  | num a, num b =>
      if b = 0 then (if 0 < a then inf else if a < 0 then neginf else nan)
      else num (a / b)

/-- A finite (ordinary numeric) value, as opposed to an infinity or NaN. -/
def FP.isFinite : FP → Bool
  | num _ => true
  | _ => false

/-- An infinite or NaN value. -/
def FP.isNonFinite : FP → Bool
  | num _ => false
  | _ => true

/-- The node algebra of src/src/autodiff.rs as a closed sum type: one
constructor per Rust node struct, with the same field layout.  The last
two constructors are not in src/src/autodiff.rs. -/
inductive Expression where
  | Var
  | Const (value : FP)
  | AddOp (lhs rhs : Expression)
  | SubOp (lhs rhs : Expression)
  | NegOp (expr : Expression)
  | MulOp (lhs rhs : Expression)
  | DivOp (lhs rhs : Expression)
  | PowOp (expr : Expression) (order : FP)
  | ExpOp (expr : Expression)
  | SinOp (expr : Expression)
  | CosOp (expr : Expression)
  | LnOp (expr : Expression)
  | AtanOp (expr : Expression)
  | Compose (outer inner : Expression)
deriving DecidableEq

/-- Interpretation of the f32 transcendental library functions the code
calls (`powf`, `exp`, `ln`, `sin_cos`) plus the spec's `atan`; all total,
as the f32 library functions are. -/
structure Transc where
  powf : FP → FP → FP
  exp : FP → FP
  ln : FP → FP
  sin : FP → FP
  cos : FP → FP
  atan : FP → FP

/-- The `Differentiable::eval` algorithm: one recursive descent returning
the (value, derivative) pair, each arm transcribing the corresponding
`impl Differentiable for ...` of src/src/autodiff.rs.  The `AtanOp` arm is
modelled from the spec: `(atan(u), du/(1+u*u))`.  The `Compose` arm is
modelled from the spec: evaluate `inner` at the input to get `(h, dh)`,
evaluate `outer` at `h` to get `(g, dg)`, return `(g, dh*dg)`. -/
def eval (t : Transc) : Expression → FP → FP × FP
  | .Var, input => (input, .num 1)
  | .Const value, _ => (value, .num 0)
  | .AddOp lhs rhs, input =>
      let (u, du) := eval t lhs input
      let (v, dv) := eval t rhs input
      (u.add v, du.add dv)
  | .SubOp lhs rhs, input =>
      let (u, du) := eval t lhs input
      let (v, dv) := eval t rhs input
      (u.sub v, du.sub dv)
  | .NegOp e, input =>
      let (y, dy) := eval t e input
      (y.neg, dy.neg)
  | .MulOp lhs rhs, input =>
      let (u, du) := eval t lhs input
      let (v, dv) := eval t rhs input
      (u.mul v, (u.mul dv).add (v.mul du))
  | .DivOp lhs rhs, input =>
      let (u, du) := eval t lhs input
      let (v, dv) := eval t rhs input
      (u.div v, ((du.mul v).sub (dv.mul u)).div (v.mul v))
  | .PowOp e order, input =>
      let (y, dy) := eval t e input
      (t.powf y order, (dy.mul order).mul (t.powf y (order.sub (.num 1))))
  | .ExpOp e, input =>
      let (y, dy) := eval t e input
      let ex := t.exp y
      (ex, dy.mul ex)
  | .SinOp e, input =>
      let (y, dy) := eval t e input
      (t.sin y, dy.mul (t.cos y))
  | .CosOp e, input =>
      let (y, dy) := eval t e input
      (t.cos y, dy.mul (t.sin y).neg)
  | .LnOp e, input =>
      let (y, dy) := eval t e input
      (t.ln y, dy.div y)
  | .AtanOp e, input =>
      let (y, dy) := eval t e input
      (t.atan y, dy.div ((FP.num 1).add (y.mul y)))
  | .Compose outer inner, input =>
      let (h, dh) := eval t inner input
      let (g, dg) := eval t outer h
      (g, dh.mul dg)

/-- Method `Expression::pow` of the wrapper. -/
def Expression.pow (e : Expression) (order : FP) : Expression :=
  .PowOp e order

/-- Method `Expression::sqrt` of the wrapper: pow with order 0.5. -/
def Expression.sqrt (e : Expression) : Expression :=
  .PowOp e (.num (1 / 2))

/-- Method `Expression::exp` of the wrapper. -/
def Expression.exp (e : Expression) : Expression :=
  .ExpOp e

/-- Method `Expression::sin` of the wrapper. -/
def Expression.sin (e : Expression) : Expression :=
  .SinOp e

/-- Method `Expression::cos` of the wrapper. -/
def Expression.cos (e : Expression) : Expression :=
  .CosOp e

/-- Method `Expression::ln` of the wrapper. -/
def Expression.ln (e : Expression) : Expression :=
  .LnOp e

/-- Modelled from the spec: the wrapper's `atan()` method (absent from
src/src/autodiff.rs), producing an arctangent node around the receiver. -/
def Expression.atan (e : Expression) : Expression :=
  .AtanOp e

/-- Modelled from the spec: the wrapper's `compose(other)` method (absent
from src/src/autodiff.rs, but called by src/src/main.rs and
src/src/example.rs as `f.compose(g)` for h(x) = f(g(x))): the receiver is
the outer function, the argument the inner one. -/
def Expression.compose (outer inner : Expression) : Expression :=
  .Compose outer inner

/-- Exact rational power interpretation used to witness the library values
the concrete claims rely on: on a finite base and a finite nonnegative
integer exponent it is the exact integer power (which is what f32 `powf`
returns whenever that power is exactly representable, as in every concrete
claim below); elsewhere it is left unspecified as NaN. -/
def ratPowF : FP → FP → FP
  | .num base, .num order =>
      if order.den = 1 ∧ 0 ≤ order.num then .num (base ^ order.num.toNat)
      else .nan
  | _, _ => .nan

/-- A concrete transcendental interpretation for witnesses: exact rational
powers, every other library function left unspecified as NaN (no concrete
claim depends on them). -/
def ratTransc : Transc :=
  ⟨ratPowF, fun _ => .nan, fun _ => .nan, fun _ => .nan, fun _ => .nan,
    fun _ => .nan⟩

/-- On the idealised carrier, IEEE subtraction agrees with addition of the
negation, special values included. -/
theorem FP.sub_add_neg (a b : FP) : a.sub b = a.add b.neg := by
  cases a <;> cases b <;> simp [FP.sub, FP.add, FP.neg]
  exact sub_eq_add_neg _ _

/-- Adding finite zero is the identity, on every carrier value. -/
theorem FP.add_num_zero (a : FP) : a.add (FP.num 0) = a := by
  cases a <;> simp [FP.add]

/-- A finite value times finite zero is finite zero. -/
theorem FP.num_mul_zero (a : ℚ) : (FP.num a).mul (FP.num 0) = FP.num 0 := by
  simp [FP.mul]

/-- Claim C2: the variable leaf evaluates to (x, 1.0) at every input x, and
the constant leaf Const(k) evaluates to (k, 0.0) for every k and every
input, under every transcendental interpretation. -/
theorem claim2_leaf_eval :
    (∀ (t : Transc) (x : FP), eval t .Var x = (x, FP.num 1)) ∧
    (∀ (t : Transc) (k x : FP), eval t (.Const k) x = (k, FP.num 0)) :=
  ⟨fun _ _ => rfl, fun _ _ _ => rfl⟩

/-- Claim C3: evaluation is a total function — for every expression,
interpretation and input it returns a numeric (value, derivative) pair —
and the division singularity (Constant(1.0)/Variable).eval(0.0) yields a
non-finite (infinite or NaN) value component instead of failing. -/
theorem claim3_total_and_div_singularity :
    (∀ (t : Transc) (e : Expression) (x : FP),
      ∃ v d : FP, eval t e x = (v, d)) ∧
    (∀ t : Transc,
      ((eval t (.DivOp (.Const (.num 1)) .Var) (.num 0)).1).isNonFinite
        = true) := by
  constructor
  · intro t e x
    exact ⟨(eval t e x).1, (eval t e x).2, rfl⟩
  · intro t
    rfl

/-- Claim C5: the multiplication combinator implements the product rule —
if the operands evaluate to (u, du) and (v, dv) at the input, MulOp returns
(u*v, u*dv + v*du) — and concretely, for f = Variable and
g = Constant(2)*Variable, (f*g).eval(3.0) has value 18 and derivative 12. -/
theorem claim5_mul_product_rule :
    (∀ (t : Transc) (f g : Expression) (x u du v dv : FP),
      eval t f x = (u, du) → eval t g x = (v, dv) →
      eval t (.MulOp f g) x = (u.mul v, (u.mul dv).add (v.mul du))) ∧
    (∀ t : Transc,
      eval t (.MulOp .Var (.MulOp (.Const (.num 2)) .Var)) (.num 3) =
        (.num 18, .num 12)) := by
  constructor
  · intro t f g x u du v dv hf hg
    simp [eval, hf, hg]
  · intro t
    simp [eval, FP.mul, FP.add]
    norm_num

/-- Witness for claim C5 at f = Variable, g = Constant(2), input 5. -/
theorem claim5_mul_product_rule_witness :
    eval ratTransc .Var (.num 5) = (.num 5, .num 1) ∧
    eval ratTransc (.Const (.num 2)) (.num 5) = (.num 2, .num 0) ∧
    eval ratTransc (.MulOp .Var (.Const (.num 2))) (.num 5) =
      ((FP.num 5).mul (.num 2),
        ((FP.num 5).mul (.num 0)).add ((FP.num 2).mul (.num 1))) :=
  ⟨rfl, rfl, claim5_mul_product_rule.1 ratTransc _ _ _ _ _ _ _ rfl rfl⟩

/-- Claim C9: determinism — two eval calls on the same expression at the
same input return identical (in the model, bit-identical) pairs. -/
theorem claim9_deterministic :
    ∀ (t : Transc) (e₁ e₂ : Expression) (x₁ x₂ : FP),
      e₁ = e₂ → x₁ = x₂ → eval t e₁ x₁ = eval t e₂ x₂ := by
  intro t e₁ e₂ x₁ x₂ he hx
  rw [he, hx]

/-- Witness for claim C9 at the variable leaf and input 0. -/
theorem claim9_deterministic_witness :
    Expression.Var = Expression.Var ∧ FP.num 0 = FP.num 0 ∧
    eval ratTransc .Var (.num 0) = eval ratTransc .Var (.num 0) :=
  ⟨rfl, rfl, claim9_deterministic ratTransc _ _ _ _ rfl rfl⟩

/-- Claim C10: SubOp is evaluation-equivalent to AddOp with a negated
right operand — (f - g).eval(x) and (f + (-g)).eval(x) return the same
(value, derivative) pair, special values included. -/
theorem claim10_sub_add_neg_eval :
    ∀ (t : Transc) (f g : Expression) (x : FP),
      eval t (.SubOp f g) x = eval t (.AddOp f (.NegOp g)) x := by
  intro t f g x
  rcases hf : eval t f x with ⟨u, du⟩
  rcases hg : eval t g x with ⟨v, dv⟩
  simp [eval, hf, hg, FP.sub_add_neg]

/-- Claim C1 (Compose modelled from the spec): Compose(outer, inner)
evaluated at x first evaluates inner at x obtaining (h, dh), then evaluates
outer at h (not at x) obtaining (g, dg), and returns (g, dh*dg);
concretely, for f(x) = x^2 and g(x) = 3x — under any powf interpretation
with the exact values 6^2 = 36 and 6^1 = 6, which f32 powf returns —
f.compose(g).eval(2.0) = (36.0, 36.0). -/
theorem claim1_compose_chain_rule :
    (∀ (t : Transc) (outer inner : Expression) (x h dh g dg : FP),
      eval t inner x = (h, dh) → eval t outer h = (g, dg) →
      eval t (outer.compose inner) x = (g, dh.mul dg)) ∧
    (∀ t : Transc,
      t.powf (.num 6) (.num 2) = .num 36 →
      t.powf (.num 6) (.num 1) = .num 6 →
      eval t
          ((Expression.pow .Var (.num 2)).compose
            (.MulOp (.Const (.num 3)) .Var)) (.num 2)
        = (.num 36, .num 36)) := by
  constructor
  · intro t outer inner x h dh g dg hi ho
    simp [eval, Expression.compose, hi, ho]
  · intro t h1 h2
    norm_num [eval, Expression.compose, Expression.pow, FP.mul, FP.add,
      FP.sub, h1, h2]

/-- Witness for claim C1: the exact rational power interpretation has
powf(6,2) = 36 and powf(6,1) = 6, and there the composition example
evaluates to (36, 36). -/
theorem claim1_compose_chain_rule_witness :
    ratTransc.powf (.num 6) (.num 2) = .num 36 ∧
    ratTransc.powf (.num 6) (.num 1) = .num 6 ∧
    eval ratTransc
        ((Expression.pow .Var (.num 2)).compose
          (.MulOp (.Const (.num 3)) .Var)) (.num 2)
      = (.num 36, .num 36) :=
  ⟨by norm_num [ratTransc, ratPowF, (show Int.toNat 1 = 1 from rfl),
      (show Int.toNat 2 = 2 from rfl), (show Int.toNat 3 = 3 from rfl)], by norm_num [ratTransc, ratPowF, (show Int.toNat 1 = 1 from rfl),
      (show Int.toNat 2 = 2 from rfl), (show Int.toNat 3 = 3 from rfl)],
    claim1_compose_chain_rule.2 ratTransc
      (by norm_num [ratTransc, ratPowF, (show Int.toNat 1 = 1 from rfl),
      (show Int.toNat 2 = 2 from rfl), (show Int.toNat 3 = 3 from rfl)]) (by norm_num [ratTransc, ratPowF, (show Int.toNat 1 = 1 from rfl),
      (show Int.toNat 2 = 2 from rfl), (show Int.toNat 3 = 3 from rfl)])⟩

/-- Claim C4: the power node on a sub-expression evaluating to (y, dy)
with fixed exponent n returns (powf(y,n), dy * n * powf(y, n-1)), i.e.
(u^n, du*n*u^(n-1)); concretely — under any powf interpretation with the
exact values 2^3 = 8 and 2^2 = 4, which f32 powf returns —
Variable.pow(3.0).eval(2.0) = (8.0, 12.0). -/
theorem claim4_pow_rule :
    (∀ (t : Transc) (e : Expression) (x y dy n : FP),
      eval t e x = (y, dy) →
      eval t (e.pow n) x =
        (t.powf y n, (dy.mul n).mul (t.powf y (n.sub (.num 1))))) ∧
    (∀ t : Transc,
      t.powf (.num 2) (.num 3) = .num 8 →
      t.powf (.num 2) (.num 2) = .num 4 →
      eval t (Expression.pow .Var (.num 3)) (.num 2) = (.num 8, .num 12)) := by
  constructor
  · intro t e x y dy n he
    simp [eval, Expression.pow, he]
  · intro t h1 h2
    norm_num [eval, Expression.pow, FP.mul, FP.sub, h1, h2]

/-- Witness for claim C4: the exact rational power interpretation has
powf(2,3) = 8 and powf(2,2) = 4, and there Variable.pow(3).eval(2) is
(8, 12). -/
theorem claim4_pow_rule_witness :
    ratTransc.powf (.num 2) (.num 3) = .num 8 ∧
    ratTransc.powf (.num 2) (.num 2) = .num 4 ∧
    eval ratTransc (Expression.pow .Var (.num 3)) (.num 2) =
      (.num 8, .num 12) :=
  ⟨by norm_num [ratTransc, ratPowF, (show Int.toNat 1 = 1 from rfl),
      (show Int.toNat 2 = 2 from rfl), (show Int.toNat 3 = 3 from rfl)], by norm_num [ratTransc, ratPowF, (show Int.toNat 1 = 1 from rfl),
      (show Int.toNat 2 = 2 from rfl), (show Int.toNat 3 = 3 from rfl)],
    claim4_pow_rule.2 ratTransc
      (by norm_num [ratTransc, ratPowF, (show Int.toNat 1 = 1 from rfl),
      (show Int.toNat 2 = 2 from rfl), (show Int.toNat 3 = 3 from rfl)]) (by norm_num [ratTransc, ratPowF, (show Int.toNat 1 = 1 from rfl),
      (show Int.toNat 2 = 2 from rfl), (show Int.toNat 3 = 3 from rfl)])⟩

/-- Claim C6: the division combinator implements the quotient rule with no
special-casing of v = 0 — if the operands evaluate to (u, du) and (v, dv)
at the input, DivOp returns (u/v, (du*v - dv*u)/(v*v)) where the divisions
follow the floating-point rules (signed infinity / NaN at v = 0). -/
theorem claim6_div_quotient_rule :
    ∀ (t : Transc) (f g : Expression) (x u du v dv : FP),
      eval t f x = (u, du) → eval t g x = (v, dv) →
      eval t (.DivOp f g) x =
        (u.div v, ((du.mul v).sub (dv.mul u)).div (v.mul v)) := by
  intro t f g x u du v dv hf hg
  simp [eval, hf, hg]

/-- Witness for claim C6 at f = Constant(1), g = Variable, input 0 — the
v = 0 case. -/
theorem claim6_div_quotient_rule_witness :
    eval ratTransc (.Const (.num 1)) (.num 0) = (.num 1, .num 0) ∧
    eval ratTransc .Var (.num 0) = (.num 0, .num 1) ∧
    eval ratTransc (.DivOp (.Const (.num 1)) .Var) (.num 0) =
      ((FP.num 1).div (.num 0),
        (((FP.num 0).mul (.num 0)).sub ((FP.num 1).mul (.num 1))).div
          ((FP.num 0).mul (.num 0))) :=
  ⟨rfl, rfl, claim6_div_quotient_rule ratTransc _ _ _ _ _ _ _ rfl rfl⟩

/-- Claim C7 (atan modelled from the spec): the wrapper exposes an atan()
method producing an arctangent node, and that node, on a sub-expression
evaluating to (y, dy), returns (atan(y), dy/(1 + y*y)). -/
theorem claim7_atan_rule :
    (∀ e : Expression, Expression.atan e = .AtanOp e) ∧
    (∀ (t : Transc) (e : Expression) (x y dy : FP),
      eval t e x = (y, dy) →
      eval t (Expression.atan e) x =
        (t.atan y, dy.div ((FP.num 1).add (y.mul y)))) := by
  constructor
  · intro e
    rfl
  · intro t e x y dy he
    simp [eval, Expression.atan, he]

/-- Witness for claim C7 at e = Variable, input 0. -/
theorem claim7_atan_rule_witness :
    eval ratTransc .Var (.num 0) = (.num 0, .num 1) ∧
    eval ratTransc (Expression.atan .Var) (.num 0) =
      (ratTransc.atan (.num 0),
        (FP.num 1).div ((FP.num 1).add ((FP.num 0).mul (.num 0)))) :=
  ⟨rfl, claim7_atan_rule.2 ratTransc _ _ _ _ rfl⟩

/-- Counterexample to claim C8 as stated: take c = 2.0 and
f = Constant(1.0)/Variable at x = 0.0.  Then f evaluates to
(inf, -inf), so the derivative of c*f is computed as
u*dv + v*du = 2*(-inf) + inf*0 = -inf + NaN = NaN, while
c * f.eval(x).derivative = 2*(-inf) = -inf, and NaN is not -inf. -/
theorem claim8_linearity_counterexample :
    (eval ratTransc
        (.MulOp (.Const (.num 2)) (.DivOp (.Const (.num 1)) .Var))
        (.num 0)).2
      ≠ (FP.num 2).mul
          ((eval ratTransc (.DivOp (.Const (.num 1)) .Var) (.num 0)).2) := by
  norm_num [eval, FP.mul, FP.div, FP.add, FP.sub]
  exact fun h => nomatch h

/-- Claim C8 amended: the additive part holds unconditionally — the
derivative of f+g is the float sum of the two derivatives — and the scalar
part holds whenever f's value at x is finite: the derivative of c*f
(lifted to Constant(c)*f) is c times f's derivative.  As originally
stated the scalar part fails when f's value is infinite, because the
product-rule term v*du = inf*0.0 is NaN (see the counterexample). -/
theorem claim8_linearity_amended :
    (∀ (t : Transc) (f g : Expression) (x : FP),
      (eval t (.AddOp f g) x).2 = (eval t f x).2.add (eval t g x).2) ∧
    (∀ (t : Transc) (f : Expression) (c x : FP),
      (eval t f x).1.isFinite = true →
      (eval t (.MulOp (.Const c) f) x).2 = c.mul (eval t f x).2) := by
  constructor
  · intro t f g x
    rcases hf : eval t f x with ⟨u, du⟩
    rcases hg : eval t g x with ⟨v, dv⟩
    simp [eval, hf, hg]
  · intro t f c x hfin
    rcases hf : eval t f x with ⟨v, dv⟩
    rw [hf] at hfin
    cases v with
    | num q => simp [eval, hf, FP.num_mul_zero, FP.add_num_zero]
    | inf => simp [FP.isFinite] at hfin
    | neginf => simp [FP.isFinite] at hfin
    | nan => simp [FP.isFinite] at hfin

/-- Witness for the amended claim C8 at f = Variable (finite everywhere),
c = 2, input 0. -/
theorem claim8_linearity_amended_witness :
    (eval ratTransc .Var (.num 0)).1.isFinite = true ∧
    (eval ratTransc (.MulOp (.Const (.num 2)) .Var) (.num 0)).2 =
      (FP.num 2).mul ((eval ratTransc .Var (.num 0)).2) :=
  ⟨rfl, claim8_linearity_amended.2 ratTransc .Var (.num 2) (.num 0) rfl⟩
